import Mathlib

/-!
Verification of the mention-collection core of the Reddit-Mention-Tracker
repository (`reddit_scraper.py`), shallowly embedded in Lean.

The embedding models the normalizer (`_extract_post_data`), the three
retrieval strategies (`_search_via_json_api`, `_search_via_browser`,
`_search_multiple_subreddits` / `_search_subreddit_json`), the aggregator
(`search_mentions`) and the score-text parser (`_parse_score`).

Network responses, browser page contents and the user-supplied progress
callback are the sources of nondeterminism in the Python code; here they are
explicit inputs (a `SearchEnv`).  Exceptions are modelled with `Except`:
a Python `try` body that can raise becomes an `Except`-valued function and
the `except` handler becomes a `match` on its result.
-/

/-- Canonical post record: the dictionary shape produced by `_extract_post_data`
and `_extract_browser_post_data` (lines 239-294 of `reddit_scraper.py`).
Numeric fields are modelled with `Int`; `upvote_ratio` (a Python float that is
only ever stored and defaulted, never computed with) is modelled with `Rat`. -/
structure Post where
  id : String
  title : String
  selftext : String
  author : String
  subreddit : String
  score : Int
  upvote_ratio : Rat
  num_comments : Int
  created_utc : Int
  url : String
  permalink : String
  domain : String
  is_self : Bool
deriving DecidableEq, Repr

/-- Raw API record (the `post['data']` dictionary of a JSON response).
A field is `none` exactly when the corresponding key is absent, so that
`Option.getD` models Python's `dict.get(key, default)`. -/
structure RawPostData where
  id : Option String := none
  title : Option String := none
  selftext : Option String := none
  author : Option String := none
  subreddit : Option String := none
  score : Option Int := none
  upvote_ratio : Option Rat := none
  num_comments : Option Int := none
  created_utc : Option Int := none
  url : Option String := none
  permalink : Option String := none
  domain : Option String := none
  is_self : Option Bool := none
deriving DecidableEq, Repr

/-- Normalizer `_extract_post_data` (lines 239-255): every missing field is
replaced by its default; the permalink is prefixed with the site origin. -/
def extract_post_data (d : RawPostData) : Post :=
  { id := d.id.getD ""
    title := d.title.getD ""
    selftext := d.selftext.getD ""
    author := d.author.getD "[deleted]"
    subreddit := d.subreddit.getD ""
    score := d.score.getD 0
    upvote_ratio := d.upvote_ratio.getD 0
    num_comments := d.num_comments.getD 0
    created_utc := d.created_utc.getD 0
    url := d.url.getD ""
    permalink := "https://www.reddit.com" ++ d.permalink.getD ""
    domain := d.domain.getD ""
    is_self := d.is_self.getD false }

/-- Outcome of one JSON search request (`session.get` + `raise_for_status` +
`response.json()` + the `data.children` shape check). `failure` covers any
network, HTTP-status or parse exception; `noChildren` is a JSON body without
`data`/`children`; `children` carries the parsed `post['data']` records. -/
inductive ApiResponse where
  | failure : ApiResponse
  | noChildren : ApiResponse
  | children : List RawPostData → ApiResponse
deriving DecidableEq, Repr

/-- Strategy 1, `_search_via_json_api` (lines 115-145): the request carries
`limit` capped at 100; on failure the exception is caught and the empty list
returned; otherwise each child record is normalized in order. -/
def search_via_json_api (api : Nat → ApiResponse) (limit : Nat) : List Post :=
  match api (min limit 100) with
  | ApiResponse.failure => []
  | ApiResponse.noChildren => []
  | ApiResponse.children cs => cs.map extract_post_data

/-- Environment of `_search_via_browser`: the outcome of `init_browser`
(`webdriver.Chrome` may raise) and of the page interaction, whose success
yields the per-post-container extraction outcomes (`none` when
`_extract_browser_post_data` failed for that container). -/
structure BrowserEnv where
  driverInit : Except Unit Unit
  page : Except Unit (List (Option Post))
deriving Repr

/-- Strategy 2, `_search_via_browser` (lines 147-182): `init_browser` re-raises
a driver failure but that exception is caught by this function's own handler,
which logs a warning and returns the empty list; a page-level failure likewise
yields the empty list; otherwise the first `limit` containers are extracted,
skipping the failed ones. -/
def search_via_browser (env : BrowserEnv) (limit : Nat) : List Post :=
  match env.driverInit with
  | Except.error _ => []
  | Except.ok _ =>
    match env.page with
    | Except.error _ => []
    | Except.ok elems => (elems.take limit).filterMap (fun x => x)

/-- Hardcoded subreddit list of `_search_multiple_subreddits` (lines 189-192). -/
def target_subreddits : List String :=
  ["technology", "business", "news", "worldnews", "stocks",
   "investing", "entrepreneur", "startups", "tech", "gadgets"]

/-- Per-subreddit search `_search_subreddit_json` (lines 210-237): same
normalization as the site-wide JSON strategy, empty on failure. -/
def search_subreddit_json (resp : ApiResponse) : List Post :=
  match resp with
  | ApiResponse.failure => []
  | ApiResponse.noChildren => []
  | ApiResponse.children cs => cs.map extract_post_data

/-- Strategy 3, `_search_multiple_subreddits` (lines 184-208): an even
per-subreddit share (minimum 1) is requested from each of the ten subreddits
in order; a failed subreddit contributes nothing and the loop continues. -/
def search_multiple_subreddits (env : String → Nat → ApiResponse) (limit : Nat) :
    List Post :=
  let posts_per_subreddit := max 1 (limit / target_subreddits.length)
  (target_subreddits.map
    (fun sub => search_subreddit_json (env sub posts_per_subreddit))).flatten

/-- Environment of one `search_mentions` invocation: the responses the three
strategies would observe (as functions of the requested count), and the
user-supplied `progress_callback`, which may itself raise. -/
structure SearchEnv where
  api : Nat → ApiResponse
  browser : BrowserEnv
  fanout : String → Nat → ApiResponse
  cb : Option (Rat → Except Unit Unit)

/-- Invocation of the optional progress callback (`if progress_callback: ...`). -/
def runCallback (cb : Option (Rat → Except Unit Unit)) (x : Rat) :
    Except Unit Unit :=
  match cb with
  | none => Except.ok ()
  | some f => f x

/-- Deduplication loop of `search_mentions` (lines 94-100), generalized over
the set of already-seen ids: a post is kept iff its id has not been seen. -/
def dedupGo (seen : List String) : List Post → List Post
  | [] => []
  | p :: ps =>
    if p.id ∈ seen then dedupGo seen ps else p :: dedupGo (p.id :: seen) ps

/-- Deduplication with an initially empty `seen_ids` set. -/
def dedupById (l : List Post) : List Post := dedupGo [] l

/-- Sort key relation of `unique_results.sort(key=..., reverse=True)`:
`a` may precede `b` iff `a.created_utc` is at least `b.created_utc`. -/
def postLe (a b : Post) : Prop := b.created_utc ≤ a.created_utc

instance : DecidableRel postLe :=
  fun a b => inferInstanceAs (Decidable (b.created_utc ≤ a.created_utc))

instance : IsTotal Post postLe :=
  ⟨fun a b => le_total b.created_utc a.created_utc⟩

instance : IsTrans Post postLe :=
  ⟨fun _ _ _ hab hbc => le_trans hbc hab⟩

/-- Stable sort by creation date, newest first (line 103).  Python's
`list.sort` is a stable sort; `reverse=True` reverses the comparison while
keeping ties in their original relative order, which is exactly a stable sort
under `postLe`. -/
def sortByCreatedDesc (l : List Post) : List Post := List.insertionSort postLe l

/-- Try-body of `search_mentions` (lines 65-106).  A value `Except.error acc`
means an exception escaped the body while the local `all_results` held `acc`;
`Except.ok res` is the normal return value.  The only statements inside the
body that can raise are the user callback invocations: both strategies catch
all their exceptions internally, and the dedup/sort/truncate steps are total. -/
def searchBody (env : SearchEnv) (limit : Nat) : Except (List Post) (List Post) :=
  match runCallback env.cb 0.1 with
  | Except.error _ => Except.error []
  | Except.ok _ =>
    let r1 := search_via_json_api env.api (limit / 2)
    match runCallback env.cb 0.4 with
    | Except.error _ => Except.error r1
    | Except.ok _ =>
      let r2 := r1 ++ search_via_browser env.browser (limit / 2)
      match runCallback env.cb 0.7 with
      | Except.error _ => Except.error r2
      | Except.ok _ =>
        let r3 :=
          if r2.length < limit / 2 then
            r2 ++ search_multiple_subreddits env.fanout (limit / 4)
          else r2
        match runCallback env.cb 0.9 with
        | Except.error _ => Except.error r3
        | Except.ok _ => Except.ok ((sortByCreatedDesc (dedupById r3)).take limit)

/-- Aggregator `search_mentions` (lines 58-113): the catch-all `except` block
returns whatever `all_results` had accumulated; the `finally` block only
releases the browser and does not affect the returned value. -/
def search_mentions (env : SearchEnv) (limit : Nat) : List Post :=
  match searchBody env limit with
  | Except.ok res => res
  | Except.error acc => acc

/-- The merged strategy results (`all_results` after lines 71-89): JSON-API
results, then browser results, then fan-out results when the combined count
is below `limit / 2`. -/
def mergedResults (env : SearchEnv) (limit : Nat) : List Post :=
  let r2 := search_via_json_api env.api (limit / 2)
    ++ search_via_browser env.browser (limit / 2)
  if r2.length < limit / 2 then
    r2 ++ search_multiple_subreddits env.fanout (limit / 4)
  else r2

/-- Progress callback that raises exactly at checkpoint `v`. -/
def cbFailAt (v : Rat) : Option (Rat → Except Unit Unit) :=
  some (fun x => if x = v then Except.error () else Except.ok ())

/-- Numeric value of a list of decimal digit characters. -/
def digitsToNat (ds : List Char) : Nat :=
  ds.foldl (fun n c => 10 * n + (c.toNat - 48)) 0

/-- Check for a nonempty all-digit character list. -/
def isDigits (ds : List Char) : Bool := !ds.isEmpty && ds.all (fun c => c.isDigit)

/-- Unsigned decimal literal accepted by Python's `float`, restricted to the
plain forms `d+`, `d+.d*`, `.d+` (no exponent, no whitespace, no underscores;
those forms never reach `_parse_score` from the scraped score text).  The
value is exact, as a rational. -/
def pyDecimal? (cs : List Char) : Option Rat :=
  match cs.span (fun c => c ≠ '.') with
  | (intPart, []) =>
    if isDigits intPart then some (digitsToNat intPart : Rat) else none
  | (intPart, _ :: frac) =>
    if frac.contains '.' then none
    else if intPart.isEmpty && frac.isEmpty then none
    else if intPart.all (fun c => c.isDigit) && frac.all (fun c => c.isDigit) then
      some ((digitsToNat intPart : Rat) + (digitsToNat frac : Rat) / (10 : Rat) ^ frac.length)
    else none

/-- Python `float(s)` on the plain decimal forms, with an optional sign.
The Python implementation evaluates to a binary double; the model keeps the
exact decimal value as a rational. -/
def pyFloat? (s : String) : Option Rat :=
  match s.data with
  | '-' :: rest => (pyDecimal? rest).map (fun q => -q)
  | '+' :: rest => pyDecimal? rest
  | cs => pyDecimal? cs

/-- Python `int(s)` on an optionally signed digit string. -/
def pyInt? (s : String) : Option Int :=
  match s.data with
  | '-' :: rest => if isDigits rest then some (-(digitsToNat rest : Int)) else none
  | '+' :: rest => if isDigits rest then some (digitsToNat rest : Int) else none
  | cs => if isDigits cs then some (digitsToNat cs : Int) else none

/-- Python `int()` applied to a numeric value truncates toward zero. -/
def ratTruncToInt (q : Rat) : Int := if 0 ≤ q then ⌊q⌋ else ⌈q⌉

/-- Python `str.lower()`, character by character (ASCII case mapping). -/
def lowerStr (s : String) : String := String.mk (s.data.map Char.toLower)

/-- Python `str.replace(c, "")` for a one-character pattern: removes every
occurrence of the character (`_parse_score` only ever replaces `","` and
`"k"` by the empty string). -/
def removeChar (c : Char) (s : String) : String :=
  String.mk (s.data.filter (fun d => d ≠ c))

/-- Score parser `_parse_score` (lines 306-314): lowercase, drop commas; a
text containing `k` is parsed as a float (with every `k` removed) scaled by
1000; otherwise as an integer; any parse failure yields 0.  The bare `except`
makes the Python function total, as is this model. -/
def parse_score (score_text : String) : Int :=
  let s := removeChar ',' (lowerStr score_text)
  if s.data.contains 'k' then
    match pyFloat? (removeChar 'k' s) with
    | some q => ratTruncToInt (q * 1000)
    | none => 0
  else
    match pyInt? s with
    | some n => n
    | none => 0

/-- Raw record whose every key is absent. -/
def emptyRawPost : RawPostData := {}

/-- Raw record carrying only an id. -/
def rawWithId (i : String) : RawPostData := { id := some i }

/-- Raw record carrying an id and a creation date. -/
def rawIdUtc (i : String) (t : Int) : RawPostData :=
  { id := some i, created_utc := some t }

/-- Site-wide search environment that always fails. -/
def apiNone : Nat → ApiResponse := fun _ => ApiResponse.failure

/-- Browser environment with a working driver and an empty results page. -/
def brNone : BrowserEnv := ⟨Except.ok (), Except.ok []⟩

/-- Fan-out environment in which every subreddit request fails. -/
def foNone : String → Nat → ApiResponse := fun _ _ => ApiResponse.failure

/-- Site-wide search environment returning one post with id `a`. -/
def apiOne : Nat → ApiResponse := fun _ => ApiResponse.children [rawIdUtc "a" 1]

/-- Site-wide search environment returning two posts with distinct ids. -/
def apiTwo : Nat → ApiResponse :=
  fun _ => ApiResponse.children [rawIdUtc "a" 1, rawIdUtc "b" 2]

/-- Site-wide search environment with a repeated id among three records. -/
def apiDup : Nat → ApiResponse :=
  fun _ => ApiResponse.children [rawIdUtc "a" 5, rawIdUtc "b" 3, rawIdUtc "a" 9]

/-- Browser environment whose driver cannot be created (`webdriver.Chrome`
raises) and whose page interaction would also fail. -/
def brFail : BrowserEnv := ⟨Except.error (), Except.error ()⟩

/-- Every post kept by the deduplication loop has an id outside the initial
seen set. -/
theorem dedupGo_mem_id_not_seen :
    ∀ (l : List Post) (seen : List String) (p : Post),
      p ∈ dedupGo seen l → p.id ∉ seen := by
  intro l
  induction l with
  | nil => intro seen p hp; simp [dedupGo] at hp
  | cons q ps ih =>
    intro seen p hp
    by_cases hq : q.id ∈ seen
    · rw [dedupGo, if_pos hq] at hp
      exact ih seen p hp
    · rw [dedupGo, if_neg hq] at hp
      rcases List.mem_cons.mp hp with rfl | hp'
      · exact hq
      · intro hm
        exact ih (q.id :: seen) p hp' (List.mem_cons_of_mem _ hm)

/-- The ids of the deduplicated list are pairwise distinct. -/
theorem dedupGo_map_id_nodup :
    ∀ (l : List Post) (seen : List String), ((dedupGo seen l).map Post.id).Nodup := by
  intro l
  induction l with
  | nil => intro seen; simp [dedupGo]
  | cons q ps ih =>
    intro seen
    by_cases hq : q.id ∈ seen
    · rw [dedupGo, if_pos hq]; exact ih seen
    · rw [dedupGo, if_neg hq]
      simp only [List.map_cons, List.nodup_cons]
      refine ⟨?_, ih (q.id :: seen)⟩
      intro hmem
      rcases List.mem_map.mp hmem with ⟨p, hp, hid⟩
      exact dedupGo_mem_id_not_seen ps (q.id :: seen) p hp
        (hid ▸ List.mem_cons_self _ _)

/-- Every post kept by the deduplication loop is the first element of the
input with its id. -/
theorem dedupGo_find? :
    ∀ (l : List Post) (seen : List String) (p : Post),
      p ∈ dedupGo seen l → l.find? (fun q => q.id == p.id) = some p := by
  intro l
  induction l with
  | nil => intro seen p hp; simp [dedupGo] at hp
  | cons q ps ih =>
    intro seen p hp
    by_cases hq : q.id ∈ seen
    · rw [dedupGo, if_pos hq] at hp
      have hne : (q.id == p.id) = false := by
        rw [beq_eq_false_iff_ne]
        intro hcontra
        exact dedupGo_mem_id_not_seen ps seen p hp (hcontra ▸ hq)
      simp only [List.find?_cons, hne]
      exact ih seen p hp
    · rw [dedupGo, if_neg hq] at hp
      rcases List.mem_cons.mp hp with rfl | hp'
      · simp only [List.find?_cons, beq_self_eq_true]
      · have hnotin := dedupGo_mem_id_not_seen ps (q.id :: seen) p hp'
        have hne : (q.id == p.id) = false := by
          rw [beq_eq_false_iff_ne]
          intro hcontra
          exact hnotin (hcontra ▸ List.mem_cons_self _ _)
        simp only [List.find?_cons, hne]
        exact ih (q.id :: seen) p hp'

/-- No post with an already-seen id survives the deduplication loop. -/
theorem dedupGo_filter_of_seen :
    ∀ (l : List Post) (seen : List String) (x : String),
      x ∈ seen → (dedupGo seen l).filter (fun p => p.id == x) = [] := by
  intro l
  induction l with
  | nil => intro seen x _; simp [dedupGo]
  | cons q ps ih =>
    intro seen x hx
    by_cases hq : q.id ∈ seen
    · rw [dedupGo, if_pos hq]; exact ih seen x hx
    · rw [dedupGo, if_neg hq, List.filter_cons]
      have hne : (q.id == x) = false := by
        rw [beq_eq_false_iff_ne]
        intro hcontra
        exact hq (hcontra ▸ hx)
      simp only [hne, Bool.false_eq_true, if_false]
      exact ih (q.id :: seen) x (List.mem_cons_of_mem _ hx)

/-- Among the posts with a given id, exactly the first one of the input
survives the deduplication loop. -/
theorem dedupGo_filter_first :
    ∀ (l₁ : List Post) (seen : List String) (x : String) (p : Post) (l₂ : List Post),
      x ∉ seen → (∀ q ∈ l₁, q.id ≠ x) → p.id = x →
      (dedupGo seen (l₁ ++ p :: l₂)).filter (fun q => q.id == x) = [p] := by
  intro l₁
  induction l₁ with
  | nil =>
    intro seen x p l₂ hx _ hp
    simp only [List.nil_append]
    rw [dedupGo, if_neg (hp ▸ hx), List.filter_cons]
    have hpe : (p.id == x) = true := by rw [beq_iff_eq]; exact hp
    simp only [hpe, if_true]
    rw [dedupGo_filter_of_seen l₂ (p.id :: seen) x (hp ▸ List.mem_cons_self _ _)]
  | cons q l₁ ih =>
    intro seen x p l₂ hx h hp
    have hqx : q.id ≠ x := h q (List.mem_cons_self q l₁)
    have hrest : ∀ r ∈ l₁, r.id ≠ x := fun r hr => h r (List.mem_cons_of_mem _ hr)
    simp only [List.cons_append]
    by_cases hq : q.id ∈ seen
    · rw [dedupGo, if_pos hq]
      exact ih seen x p l₂ hx hrest hp
    · rw [dedupGo, if_neg hq, List.filter_cons]
      have hne : (q.id == x) = false := by rw [beq_eq_false_iff_ne]; exact hqx
      simp only [hne, Bool.false_eq_true, if_false]
      refine ih (q.id :: seen) x p l₂ ?_ hrest hp
      intro hmem
      rcases List.mem_cons.mp hmem with hcon | hcon
      · exact hqx hcon.symm
      · exact hx hcon

/-- Sorting by creation date permutes the input. -/
theorem sortByCreatedDesc_perm (l : List Post) : (sortByCreatedDesc l).Perm l :=
  List.perm_insertionSort postLe l

/-- The sort output is ordered newest-first. -/
theorem sortByCreatedDesc_sorted (l : List Post) :
    (sortByCreatedDesc l).Pairwise postLe :=
  List.sorted_insertionSort postLe l

/-- Stability of the sort: a filter keeping only posts of one fixed creation
date is unchanged by sorting. -/
theorem filter_created_sortByCreatedDesc (l : List Post) (t : Int) :
    (sortByCreatedDesc l).filter (fun p => p.created_utc == t)
      = l.filter (fun p => p.created_utc == t) := by
  have hpw : (l.filter (fun p => p.created_utc == t)).Pairwise postLe := by
    apply List.pairwise_of_forall_mem_list
    intro a ha b hb
    have ha2 := List.of_mem_filter ha
    have hb2 := List.of_mem_filter hb
    show b.created_utc ≤ a.created_utc
    rw [beq_iff_eq.mp ha2, beq_iff_eq.mp hb2]
  have h1 : (l.filter (fun p => p.created_utc == t)).Sublist (sortByCreatedDesc l) :=
    List.sublist_insertionSort hpw (List.filter_sublist l)
  have h2 : (l.filter (fun p => p.created_utc == t)).Sublist
      ((sortByCreatedDesc l).filter (fun p => p.created_utc == t)) := by
    have h := List.Sublist.filter (fun p => p.created_utc == t) h1
    simpa only [List.filter_filter, Bool.and_self] using h
  have h3 : ((sortByCreatedDesc l).filter (fun p => p.created_utc == t)).length
      = (l.filter (fun p => p.created_utc == t)).length :=
    (List.Perm.filter _ (sortByCreatedDesc_perm l)).length_eq
  exact (List.Sublist.eq_of_length h2 h3.symm).symm

/-- With no progress callback installed, `search_mentions` is exactly the
dedup-sort-truncate pipeline over the merged strategy results. -/
theorem search_mentions_none_cb (api : Nat → ApiResponse) (br : BrowserEnv)
    (fo : String → Nat → ApiResponse) (limit : Nat) :
    search_mentions ⟨api, br, fo, none⟩ limit
      = (sortByCreatedDesc (dedupById (mergedResults ⟨api, br, fo, none⟩ limit))).take limit :=
  rfl

/-- C1: for every multiset of raw records produced by the three strategies in
order, the list returned by `search_mentions` contains at most one post per
distinct id (the ids of the output are pairwise distinct), and each returned
post is the first occurrence of its id in the merged strategy order. -/
theorem search_mentions_dedup_first_seen (api : Nat → ApiResponse)
    (br : BrowserEnv) (fo : String → Nat → ApiResponse) (limit : Nat) :
    ((search_mentions ⟨api, br, fo, none⟩ limit).map Post.id).Nodup ∧
    ∀ p ∈ search_mentions ⟨api, br, fo, none⟩ limit,
      (mergedResults ⟨api, br, fo, none⟩ limit).find? (fun q => q.id == p.id)
        = some p := by
  rw [search_mentions_none_cb]
  constructor
  · have hd : ((dedupById (mergedResults ⟨api, br, fo, none⟩ limit)).map Post.id).Nodup :=
      dedupGo_map_id_nodup _ []
    have hperm : ((sortByCreatedDesc (dedupById (mergedResults ⟨api, br, fo, none⟩ limit))).map
        Post.id).Perm ((dedupById (mergedResults ⟨api, br, fo, none⟩ limit)).map Post.id) :=
      (sortByCreatedDesc_perm _).map _
    have hs := hperm.nodup_iff.mpr hd
    exact hs.sublist (List.Sublist.map _ (List.take_sublist _ _))
  · intro p hp
    have hp1 : p ∈ sortByCreatedDesc (dedupById (mergedResults ⟨api, br, fo, none⟩ limit)) :=
      List.take_subset _ _ hp
    have hp2 : p ∈ dedupById (mergedResults ⟨api, br, fo, none⟩ limit) :=
      (sortByCreatedDesc_perm _).mem_iff.mp hp1
    exact dedupGo_find? _ [] p hp2

/-- Witness for C1 at a concrete environment: the API returns records with
ids a, b, a; the kept post with id a is the first one. -/
theorem search_mentions_dedup_first_seen_witness :
    extract_post_data (rawIdUtc "a" 5) ∈ search_mentions ⟨apiDup, brNone, foNone, none⟩ 10 ∧
    (mergedResults ⟨apiDup, brNone, foNone, none⟩ 10).find?
        (fun q => q.id == (extract_post_data (rawIdUtc "a" 5)).id)
      = some (extract_post_data (rawIdUtc "a" 5)) :=
  ⟨by decide,
   (search_mentions_dedup_first_seen apiDup brNone foNone 10).2
     (extract_post_data (rawIdUtc "a" 5)) (by decide)⟩

/-- C2: the output of `search_mentions` is sorted by `created_utc` descending,
and the sort is stable: for each creation date, the output's posts with that
date form a prefix (in unchanged order) of the deduplicated merge's posts
with that date. -/
theorem search_mentions_sorted_stable (api : Nat → ApiResponse)
    (br : BrowserEnv) (fo : String → Nat → ApiResponse) (limit : Nat) :
    (search_mentions ⟨api, br, fo, none⟩ limit).Pairwise
      (fun a b => b.created_utc ≤ a.created_utc) ∧
    ∀ t : Int, ∃ rest,
      (search_mentions ⟨api, br, fo, none⟩ limit).filter
          (fun p => p.created_utc == t) ++ rest
        = (dedupById (mergedResults ⟨api, br, fo, none⟩ limit)).filter
            (fun p => p.created_utc == t) := by
  rw [search_mentions_none_cb]
  constructor
  · exact List.Pairwise.sublist (List.take_sublist _ _)
      (sortByCreatedDesc_sorted (dedupById (mergedResults ⟨api, br, fo, none⟩ limit)))
  · intro t
    refine ⟨((sortByCreatedDesc (dedupById (mergedResults ⟨api, br, fo, none⟩ limit))).drop
        limit).filter (fun p => p.created_utc == t), ?_⟩
    rw [← List.filter_append, List.take_append_drop]
    exact filter_created_sortByCreatedDesc _ t

/-- C5 counterexample: on the raw record with every key absent, the
normalized permalink is the bare site origin, not the empty string. -/
theorem extract_post_data_permalink_counterexample :
    (extract_post_data emptyRawPost).permalink = "https://www.reddit.com" ∧
    (extract_post_data emptyRawPost).permalink ≠ "" := by
  constructor
  · rfl
  · decide

/-- C5 amended: on a raw record missing every field the normalizer yields
score 0, num_comments 0, upvote_ratio 0, is_self false, created_utc 0,
author "[deleted]", empty title, selftext, subreddit, url and domain, and
permalink equal to the site origin prefix. -/
theorem extract_post_data_defaults :
    extract_post_data emptyRawPost =
      { id := "", title := "", selftext := "", author := "[deleted]",
        subreddit := "", score := 0, upvote_ratio := 0, num_comments := 0,
        created_utc := 0, url := "", permalink := "https://www.reddit.com",
        domain := "", is_self := false } := by
  rfl

/-- C10: a raw record with no id is normalized to a post whose id is the
empty string, and the deduplication keeps only the first such post: in a
merge whose earlier posts all have non-empty ids, the posts of the output
with empty id are exactly the one first id-less post, whatever id-less
posts follow it. -/
theorem dedup_collapses_idless (r : RawPostData) (hr : r.id = none)
    (l₁ l₂ : List Post) (h : ∀ p ∈ l₁, p.id ≠ "") :
    (extract_post_data r).id = "" ∧
    (dedupById (l₁ ++ extract_post_data r :: l₂)).filter (fun p => p.id == "")
      = [extract_post_data r] := by
  have hid : (extract_post_data r).id = "" := by
    simp [extract_post_data, hr]
  refine ⟨hid, ?_⟩
  exact dedupGo_filter_first l₁ [] "" (extract_post_data r) l₂
    (List.not_mem_nil "") h hid

/-- Witness for C10: two id-less records in one search collapse to the
single first-seen one. -/
theorem dedup_collapses_idless_witness :
    emptyRawPost.id = none ∧
    (∀ p ∈ [extract_post_data (rawWithId "a")], p.id ≠ "") ∧
    ((extract_post_data emptyRawPost).id = "" ∧
     (dedupById ([extract_post_data (rawWithId "a")]
        ++ extract_post_data emptyRawPost :: [extract_post_data emptyRawPost])).filter
          (fun p => p.id == "") = [extract_post_data emptyRawPost]) :=
  ⟨rfl, by decide,
   dedup_collapses_idless emptyRawPost rfl
     [extract_post_data (rawWithId "a")] [extract_post_data emptyRawPost] (by decide)⟩

/-- C3 counterexample: when the progress callback raises at the 0.4
checkpoint, the catch-all handler returns the accumulated results without
truncation; with limit 1 and two API posts the returned list has length 2. -/
theorem search_mentions_limit_counterexample :
    ¬ ((search_mentions ⟨apiTwo, brNone, foNone, cbFailAt 0.4⟩ 1).length ≤ 1) := by
  have h : search_mentions ⟨apiTwo, brNone, foNone, cbFailAt 0.4⟩ 1
      = [extract_post_data (rawIdUtc "a" 1), extract_post_data (rawIdUtc "b" 2)] := by
    norm_num [search_mentions, searchBody, runCallback, cbFailAt,
      search_via_json_api, apiTwo]
  rw [h]
  decide

/-- C3 amended: on every run that completes normally (no exception reaches
the aggregator's handler; here, no progress callback), the length of the
returned list never exceeds the requested limit; the exception path instead
returns the accumulated results untruncated. -/
theorem search_mentions_length_le_limit (api : Nat → ApiResponse)
    (br : BrowserEnv) (fo : String → Nat → ApiResponse) (limit : Nat) :
    (search_mentions ⟨api, br, fo, none⟩ limit).length ≤ limit := by
  rw [search_mentions_none_cb]
  exact List.length_take_le _ _

/-- C4 counterexample: with a browser driver that cannot be created, the
whole run still completes normally (no exception escapes the try body) and
returns the JSON-API results: nothing is raised to the caller. -/
theorem search_mentions_browser_unavailable_counterexample :
    searchBody ⟨apiOne, brFail, foNone, none⟩ 10
      = Except.ok [extract_post_data (rawIdUtc "a" 1)] ∧
    search_mentions ⟨apiOne, brFail, foNone, none⟩ 10
      = [extract_post_data (rawIdUtc "a" 1)] := by
  constructor
  · rfl
  · decide

/-- C4 amended: `search_mentions` never raises: a browser-acquisition
failure is caught inside `_search_via_browser`, which contributes the empty
list, so the run is indistinguishable from one with a working browser and an
empty results page, and a list is always returned. -/
theorem search_mentions_browser_init_nonfatal (api : Nat → ApiResponse)
    (page : Except Unit (List (Option Post))) (fo : String → Nat → ApiResponse)
    (cb : Option (Rat → Except Unit Unit)) (limit : Nat) :
    search_via_browser ⟨Except.error (), page⟩ (limit / 2) = [] ∧
    search_mentions ⟨api, ⟨Except.error (), page⟩, fo, cb⟩ limit
      = search_mentions ⟨api, brNone, fo, cb⟩ limit := by
  refine ⟨rfl, ?_⟩
  simp only [search_mentions, searchBody, search_via_browser, brNone,
    List.take_nil, List.filterMap_nil]

/-- C6: when the site-wide JSON request fails, the JSON-API strategy
contributes the empty list and `search_mentions` still returns the pipeline
over the Browser and Fan-out results instead of raising. -/
theorem search_mentions_api_failure_resilient (api : Nat → ApiResponse)
    (br : BrowserEnv) (fo : String → Nat → ApiResponse) (limit : Nat)
    (h : api (min (limit / 2) 100) = ApiResponse.failure) :
    search_via_json_api api (limit / 2) = [] ∧
    search_mentions ⟨api, br, fo, none⟩ limit
      = (sortByCreatedDesc (dedupById
          (if (search_via_browser br (limit / 2)).length < limit / 2
           then search_via_browser br (limit / 2)
             ++ search_multiple_subreddits fo (limit / 4)
           else search_via_browser br (limit / 2)))).take limit := by
  have h1 : search_via_json_api api (limit / 2) = [] := by
    simp [search_via_json_api, h]
  refine ⟨h1, ?_⟩
  rw [search_mentions_none_cb]
  simp only [mergedResults, h1, List.nil_append]

/-- Witness for C6 at a concrete failing API environment. -/
theorem search_mentions_api_failure_resilient_witness :
    apiNone (min (10 / 2) 100) = ApiResponse.failure ∧
    (search_via_json_api apiNone (10 / 2) = [] ∧
     search_mentions ⟨apiNone, brNone, foNone, none⟩ 10
       = (sortByCreatedDesc (dedupById
           (if (search_via_browser brNone (10 / 2)).length < 10 / 2
            then search_via_browser brNone (10 / 2)
              ++ search_multiple_subreddits foNone (10 / 4)
            else search_via_browser brNone (10 / 2)))).take 10) :=
  ⟨rfl, search_mentions_api_failure_resilient apiNone brNone foNone 10 rfl⟩

/-- C7: when the progress callback raises at any of the four checkpoints,
the aggregator's handler returns exactly the results accumulated before the
failure: nothing at 0.1, the JSON-API results at 0.4, the JSON-API plus
Browser results at 0.7, and the full merge at 0.9. -/
theorem search_mentions_partial_on_failure (api : Nat → ApiResponse)
    (br : BrowserEnv) (fo : String → Nat → ApiResponse) (limit : Nat) :
    search_mentions ⟨api, br, fo, cbFailAt 0.1⟩ limit = [] ∧
    search_mentions ⟨api, br, fo, cbFailAt 0.4⟩ limit
      = search_via_json_api api (limit / 2) ∧
    search_mentions ⟨api, br, fo, cbFailAt 0.7⟩ limit
      = search_via_json_api api (limit / 2) ++ search_via_browser br (limit / 2) ∧
    search_mentions ⟨api, br, fo, cbFailAt 0.9⟩ limit
      = mergedResults ⟨api, br, fo, cbFailAt 0.9⟩ limit := by
  refine ⟨?_, ?_, ?_, ?_⟩ <;>
    norm_num [search_mentions, searchBody, runCallback, cbFailAt, mergedResults]

/-- C9: the fan-out strategy runs iff the combined JSON-API and Browser
results number fewer than limit / 2, and when it runs it is invoked with
limit / 4; when it does not run the output does not depend on the fan-out
environment at all. -/
theorem search_mentions_fanout_iff (api : Nat → ApiResponse)
    (br : BrowserEnv) (fo : String → Nat → ApiResponse) (limit : Nat) :
    ((search_via_json_api api (limit / 2)
        ++ search_via_browser br (limit / 2)).length < limit / 2 →
      search_mentions ⟨api, br, fo, none⟩ limit
        = (sortByCreatedDesc (dedupById
            ((search_via_json_api api (limit / 2) ++ search_via_browser br (limit / 2))
              ++ search_multiple_subreddits fo (limit / 4)))).take limit) ∧
    (¬ (search_via_json_api api (limit / 2)
        ++ search_via_browser br (limit / 2)).length < limit / 2 →
      (∀ fo2 : String → Nat → ApiResponse,
        search_mentions ⟨api, br, fo, none⟩ limit
          = search_mentions ⟨api, br, fo2, none⟩ limit) ∧
      search_mentions ⟨api, br, fo, none⟩ limit
        = (sortByCreatedDesc (dedupById
            (search_via_json_api api (limit / 2)
              ++ search_via_browser br (limit / 2)))).take limit) := by
  constructor
  · intro h
    rw [search_mentions_none_cb]
    simp only [mergedResults]
    rw [if_pos h]
  · intro h
    constructor
    · intro fo2
      rw [search_mentions_none_cb, search_mentions_none_cb]
      simp only [mergedResults]
      rw [if_neg h, if_neg h]
    · rw [search_mentions_none_cb]
      simp only [mergedResults]
      rw [if_neg h]

/-- Witness for C9: with empty strategies and limit 4 the fan-out condition
holds and the fan-out is consulted at 4 / 4 = 1. -/
theorem search_mentions_fanout_iff_witness :
    (search_via_json_api apiNone (4 / 2)
        ++ search_via_browser brNone (4 / 2)).length < 4 / 2 ∧
    search_mentions ⟨apiNone, brNone, foNone, none⟩ 4
      = (sortByCreatedDesc (dedupById
          ((search_via_json_api apiNone (4 / 2) ++ search_via_browser brNone (4 / 2))
            ++ search_multiple_subreddits foNone (4 / 4)))).take 4 :=
  ⟨by decide, (search_mentions_fanout_iff apiNone brNone foNone 4).1 (by decide)⟩

/-- C8: the score parser maps "1.2k" to 1200, "45" to 45, unparsable text to
0, and in general a text containing the k suffix is parsed as its numeric
prefix times 1000, truncated toward zero; the function is total (the Python
bare except), so it never raises.  The numeric prefix is evaluated exactly,
as a rational; Python evaluates it as a binary double. -/
theorem parse_score_spec :
    parse_score "1.2k" = 1200 ∧
    parse_score "45" = 45 ∧
    parse_score "N/A" = 0 ∧
    (∀ (s : String) (q : Rat),
      (removeChar ',' (lowerStr s)).data.contains 'k' = true →
      pyFloat? (removeChar 'k' (removeChar ',' (lowerStr s))) = some q →
      parse_score s = ratTruncToInt (q * 1000)) ∧
    (∀ s : String, (removeChar ',' (lowerStr s)).data.contains 'k' = true →
      pyFloat? (removeChar 'k' (removeChar ',' (lowerStr s))) = none →
      parse_score s = 0) ∧
    (∀ s : String, (removeChar ',' (lowerStr s)).data.contains 'k' = false →
      pyInt? (removeChar ',' (lowerStr s)) = none →
      parse_score s = 0) := by
  refine ⟨?_, by decide, by decide, ?_, ?_, ?_⟩
  · simp +decide [parse_score, pyFloat?, pyDecimal?, List.span.loop, digitsToNat,
      isDigits, removeChar, lowerStr, ratTruncToInt]
    norm_num
  · intro s q h1 h2
    have hk : 'k' ∈ (removeChar ',' (lowerStr s)).data := by simpa using h1
    simp [parse_score, hk, h2]
  · intro s h1 h2
    have hk : 'k' ∈ (removeChar ',' (lowerStr s)).data := by simpa using h1
    simp [parse_score, hk, h2]
  · intro s h1 h2
    have hk : 'k' ∉ (removeChar ',' (lowerStr s)).data := by simpa using h1
    simp [parse_score, hk, h2]

/-- Witness for C8 at concrete inputs for each of the three general rules:
"3.5K" parses as 3.5 scaled by 1000, "wk" has the suffix but no parsable
prefix, "zz" has neither. -/
theorem parse_score_spec_witness :
    ((removeChar ',' (lowerStr "3.5K")).data.contains 'k' = true ∧
     pyFloat? (removeChar 'k' (removeChar ',' (lowerStr "3.5K"))) = some ((7 : Rat) / 2) ∧
     parse_score "3.5K" = ratTruncToInt (((7 : Rat) / 2) * 1000)) ∧
    ((removeChar ',' (lowerStr "wk")).data.contains 'k' = true ∧
     pyFloat? (removeChar 'k' (removeChar ',' (lowerStr "wk"))) = none ∧
     parse_score "wk" = 0) ∧
    ((removeChar ',' (lowerStr "zz")).data.contains 'k' = false ∧
     pyInt? (removeChar ',' (lowerStr "zz")) = none ∧
     parse_score "zz" = 0) := by
  refine ⟨⟨by decide, ?_, ?_⟩, ⟨by decide, by decide, ?_⟩, ⟨by decide, by decide, ?_⟩⟩
  · simp +decide [pyFloat?, pyDecimal?, List.span.loop, digitsToNat, isDigits,
      removeChar, lowerStr]
    norm_num
  · refine parse_score_spec.2.2.2.1 "3.5K" ((7 : Rat) / 2) (by decide) ?_
    simp +decide [pyFloat?, pyDecimal?, List.span.loop, digitsToNat, isDigits,
      removeChar, lowerStr]
    norm_num
  · exact parse_score_spec.2.2.2.2.1 "wk" (by decide) (by decide)
  · exact parse_score_spec.2.2.2.2.2 "zz" (by decide) (by decide)
